import Mathlib

/-!
Shallow embedding of the query-execution core of a CQL driver
(scylla-rust-driver snapshot), together with proofs checking the
natural-language specification against the code.

Conventions of the embedding:
* Rust byte strings (`Bytes`, `&[u8]`, `String` as UTF-8) are `List Nat`
  with each element a byte value.
* `i32` / `i64` wire integers are `Int` with explicit two's-complement
  reconstruction from big-endian bytes.
* Fallible Rust functions returning `Result<T, E>` become
  `Except E T`; `anyhow::Result` error payloads are plain `String`s.
* Stateful objects (`DefaultRetryPolicy`) are passed and returned
  explicitly.
-/

/-- Consistency level of a query.  Modelled from the spec: the
`Consistency` enum lives in `statement/mod.rs`, which is not part of the
sources; the spec describes it as the per-request replication
acknowledgment requirement (ONE, QUORUM, ALL, ...).  No code under
verification inspects the value, only carries it. -/
inductive Consistency
  | One
  | Two
  | Three
  | Quorum
  | All
  | LocalQuorum
  | EachQuorum
  | LocalOne
deriving DecidableEq, Repr

/-- Type of write operation reported in a WriteTimeout / WriteFailure
database error (`transport/errors.rs`). -/
inductive WriteType
  | Simple
  | Batch
  | UnloggedBatch
  | Counter
  | BatchLog
  | CAS
  | View
  | CDC
  | Other (s : String)
deriving DecidableEq, Repr

/-- An error sent from the database in response to a query
(`transport/errors.rs`, enum `DBError`).  Field payloads are kept
exactly as in the source (i32 becomes Int). -/
inductive DBError
  | SyntaxError
  | Invalid
  | AlreadyExists (keyspace : String) (table : String)
  | FunctionFailure (keyspace : String) (function : String) (arg_types : List String)
  | AuthenticationError
  | Unauthorized
  | ConfigError
  | Unavailable (consistency : Consistency) (required : Int) (alive : Int)
  | Overloaded
  | IsBootstrapping
  | TruncateError
  | ReadTimeout (consistency : Consistency) (received : Int) (required : Int)
      (data_present : Bool)
  | WriteTimeout (consistency : Consistency) (received : Int) (required : Int)
      (write_type : WriteType)
  | ReadFailure (consistency : Consistency) (received : Int) (required : Int)
      (numfailures : Int) (data_present : Bool)
  | WriteFailure (consistency : Consistency) (received : Int) (required : Int)
      (numfailures : Int) (write_type : WriteType)
  | Unprepared
  | ServerError
  | ProtocolError
  | Other (code : Int)
deriving DecidableEq, Repr

/-- Invalid keyspace name given to `Session::use_keyspace`
(`transport/errors.rs`, enum `BadKeyspaceName`). -/
inductive BadKeyspaceName
  | Empty
  | TooLong (name : String) (len : Nat)
  | IllegalCharacter (name : String) (c : Char)
deriving DecidableEq, Repr

/-- Error caused by the caller creating an invalid query
(`transport/errors.rs`, enum `BadQuery`).  The payload of
`SerializeValuesError` comes from `frame/value.rs` (not in the sources)
and is never inspected here, so it is left as a unit constructor. -/
inductive BadQuery
  | SerializeValuesError
  | ValueLenMismatch (provided : Nat) (expected : Nat)
  | ValuesTooLongForKey (len : Nat) (max : Nat)
  | BadKeyspaceName (e : BadKeyspaceName)
deriving DecidableEq, Repr

/-- Error during query execution (`transport/errors.rs`, enum
`QueryError`).  The `Arc<std::io::Error>` payload of `IOError` is
modelled by its message string. -/
inductive QueryError
  | DBError (e : DBError) (msg : String)
  | BadQuery (e : BadQuery)
  | IOError (msg : String)
  | ProtocolError (s : String)
deriving DecidableEq, Repr

/-- Decision of a retry policy (`transport/retry_policy.rs`). -/
inductive RetryDecision
  | RetrySameNode
  | RetryNextNode
  | DontRetry
deriving DecidableEq, Repr

/-- Information about a failed query handed to a retry policy
(`transport/retry_policy.rs`, struct `QueryInfo`). -/
structure QueryInfo where
  error : QueryError
  is_idempotent : Bool
  consistency : Consistency
deriving DecidableEq, Repr

/-- Per-query mutable state of the default retry policy
(`transport/retry_policy.rs`, struct `DefaultRetryPolicy`). -/
structure DefaultRetryPolicy where
  was_unavailable_retry : Bool
  was_read_timeout_retry : Bool
deriving DecidableEq, Repr

/-- `DefaultRetryPolicy::new` : both retry flags start false. -/
def DefaultRetryPolicy.new : DefaultRetryPolicy :=
  { was_unavailable_retry := false, was_read_timeout_retry := false }

/-- `DefaultRetryPolicy::decide_should_retry` (`transport/retry_policy.rs`).
The `&mut self` method becomes a function returning the decision paired
with the updated policy state. -/
def decide_should_retry (self : DefaultRetryPolicy) (query_info : QueryInfo) :
    RetryDecision × DefaultRetryPolicy :=
  match query_info.error with
  | QueryError.IOError _
  | QueryError.DBError DBError.Overloaded _
  | QueryError.DBError DBError.ServerError _
  | QueryError.DBError DBError.TruncateError _ =>
      if query_info.is_idempotent then
        (RetryDecision.RetryNextNode, self)
      else
        (RetryDecision.DontRetry, self)
  | QueryError.DBError (DBError.Unavailable _ _ _) _ =>
      if !self.was_unavailable_retry then
        (RetryDecision.RetryNextNode, { self with was_unavailable_retry := true })
      else
        (RetryDecision.DontRetry, self)
  | QueryError.DBError (DBError.ReadTimeout _ received required data_present) _ =>
      if !self.was_read_timeout_retry && decide (received ≥ required) && data_present then
        (RetryDecision.RetrySameNode, { self with was_read_timeout_retry := true })
      else
        (RetryDecision.DontRetry, self)
  | QueryError.DBError (DBError.WriteTimeout _ _ _ write_type) _ =>
      if query_info.is_idempotent && write_type == WriteType.BatchLog then
        (RetryDecision.RetrySameNode, self)
      else
        (RetryDecision.DontRetry, self)
  | QueryError.DBError DBError.IsBootstrapping _ =>
      (RetryDecision.RetryNextNode, self)
  | _ => (RetryDecision.DontRetry, self)

/-- Folds a sequence of failure reports through one policy instance,
returning the final state: the history of one `DefaultRetryPolicy`
instance during a query. -/
def decide_run_state (self : DefaultRetryPolicy) : List QueryInfo → DefaultRetryPolicy
  | [] => self
  | q :: qs => decide_run_state (decide_should_retry self q).2 qs

/-- Does this error match the `Unavailable` arm of the default policy? -/
def isUnavailableErr : QueryError → Bool
  | QueryError.DBError (DBError.Unavailable _ _ _) _ => true
  | _ => false

/-- Does this error match the `ReadTimeout` arm with the retryable
condition (`received >= required && data_present`)? -/
def readTimeoutRetryable : QueryError → Bool
  | QueryError.DBError (DBError.ReadTimeout _ received required data_present) _ =>
      decide (received ≥ required) && data_present
  | _ => false

/-- The retry decision table exactly as the specification states it,
as a function of the instance history (the failure reports already fed
to this instance) and the current failure.  This is the spec side of
claim C1; `decide_should_retry` is the code side. -/
def specTableDecision (history : List QueryInfo) (q : QueryInfo) : RetryDecision :=
  match q.error with
  | QueryError.IOError _
  | QueryError.DBError DBError.Overloaded _
  | QueryError.DBError DBError.ServerError _
  | QueryError.DBError DBError.TruncateError _ =>
      if q.is_idempotent then RetryDecision.RetryNextNode else RetryDecision.DontRetry
  | QueryError.DBError (DBError.Unavailable _ _ _) _ =>
      if history.any (fun p => isUnavailableErr p.error) then
        RetryDecision.DontRetry
      else
        RetryDecision.RetryNextNode
  | QueryError.DBError (DBError.ReadTimeout _ received required data_present) _ =>
      if decide (received ≥ required) && data_present &&
          !(history.any (fun p => readTimeoutRetryable p.error)) then
        RetryDecision.RetrySameNode
      else
        RetryDecision.DontRetry
  | QueryError.DBError (DBError.WriteTimeout _ _ _ write_type) _ =>
      if q.is_idempotent && write_type == WriteType.BatchLog then
        RetryDecision.RetrySameNode
      else
        RetryDecision.DontRetry
  | QueryError.DBError DBError.IsBootstrapping _ => RetryDecision.RetryNextNode
  | _ => RetryDecision.DontRetry

/-- Error of `PreparedStatement::compute_partition_key`
(`statement/prepared_statement.rs`, enum `PartitionKeyError`).  The
source stores `pk_index : u16` and `values.len() : i16`; both are
modelled as `Nat`. -/
inductive PartitionKeyError
  | NoPkIndexValue (pk_index : Nat) (values_len : Nat)
  | ValueTooLong (values_len : Nat)
deriving DecidableEq, Repr

/-- `SerializedValues` (from `frame/value.rs`, not in the sources).
Modelled from the spec: an ordered sequence of bound parameters, each
either NULL (`none`) or an already-encoded byte string; iteration order
is bind-position order. -/
def SerializedValues : Type := List (Option (List Nat))

/-- Big-endian encoding of a `u16` value (`BufMut::put_u16`); the
argument is below 65536 at every use site (guarded by the `try_into`
check). -/
def u16_be (n : Nat) : List Nat := [n / 256, n % 256]

/-- The `for pk_index in &self.metadata.pk_indexes` loop of
`compute_partition_key` (the K != 1 branch), with `buf` the bytes
accumulated so far.  A NULL value (`none`) appends nothing; a present
value is appended as `[u16 length][value bytes][0]` after the
`try_into::<u16>` length check. -/
def compute_pk_loop : List Nat → SerializedValues → List Nat →
    Except PartitionKeyError (List Nat)
  | [], _, buf => Except.ok buf
  | pk_index :: rest, values, buf =>
    match values.get? pk_index with
    | none => Except.error (PartitionKeyError.NoPkIndexValue pk_index values.length)
    | some none => compute_pk_loop rest values buf
    | some (some v) =>
      if v.length < 65536 then
        compute_pk_loop rest values (buf ++ u16_be v.length ++ v ++ [0])
      else
        Except.error (PartitionKeyError.ValueTooLong v.length)

/-- `PreparedStatement::compute_partition_key`
(`statement/prepared_statement.rs`).  The function depends on the
statement only through `metadata.pk_indexes`, which is passed directly.
If there is exactly one pk index, the raw value bytes are emitted with
no length prefix (nothing for NULL); otherwise each indexed value is
appended as `[u16 length][value][0]` in `pk_indexes` order. -/
def compute_partition_key (pk_indexes : List Nat) (bound_values : SerializedValues) :
    Except PartitionKeyError (List Nat) :=
  match pk_indexes with
  | [pk0] =>
    match bound_values.get? pk0 with
    | none => Except.error (PartitionKeyError.NoPkIndexValue pk0 bound_values.length)
    | some none => Except.ok []
    | some (some v) => Except.ok v
  | _ => compute_pk_loop pk_indexes bound_values []

/-- Routing token.  Modelled from the spec: `murmur3_token` lives in
`routing.rs`, which is not in the sources; the spec says only that the
partition-key bytes are hashed with murmur3 into a signed 64-bit token.
The hash function itself is irrelevant to every claim, so the token is
modelled as carrying the bytes that would be hashed. -/
structure Token where
  hashed_bytes : List Nat
deriving DecidableEq, Repr

/-- Modelled from the spec: `murmur3_token` (see `Token`). -/
def murmur3_token (pk : List Nat) : Token := { hashed_bytes := pk }

/-- `calculate_token` (`transport/session.rs`): maps
`compute_partition_key` errors to `QueryError` exactly as the source
does and hashes the key on success. -/
def calculate_token (pk_indexes : List Nat) (values : SerializedValues) :
    Except QueryError Token :=
  match compute_partition_key pk_indexes values with
  | Except.error (PartitionKeyError.NoPkIndexValue _ _) =>
      Except.error (QueryError.ProtocolError "No pk indexes - cannot calculate token")
  | Except.error (PartitionKeyError.ValueTooLong values_len) =>
      Except.error (QueryError.BadQuery (BadQuery.ValuesTooLongForKey values_len 65535))
  | Except.ok key => Except.ok (murmur3_token key)

/-- Contribution of the value at bound index `i` to a compound (K >= 2)
partition key, as the specification describes it: length prefix, value
bytes, zero separator — and nothing at all for NULL.  Spec side of
claims C3 and C9. -/
def pk_component (values : SerializedValues) (i : Nat) : List Nat :=
  match values.get? i with
  | some (some v) => u16_be v.length ++ v ++ [0]
  | _ => []

/-- CQL column type (`frame/response/result.rs`, enum `ColumnType`). -/
inductive ColumnType
  | Ascii
  | Int
  | BigInt
  | Text
  | Inet
  | Set (t : ColumnType)
deriving DecidableEq, Repr

/-- `std::net::IpAddr` as it appears in decoded values: a 4-byte or a
16-byte address. -/
inductive IpAddrModel
  | V4 (bytes : List Nat)
  | V6 (bytes : List Nat)
deriving DecidableEq, Repr

/-- Decoded CQL value (`frame/response/result.rs`, enum `CQLValue`).
Rust `String`s are modelled as their UTF-8 byte lists. -/
inductive CQLValue
  | Ascii (s : List Nat)
  | Int (i : Int)
  | BigInt (i : Int)
  | Text (s : List Nat)
  | Inet (a : IpAddrModel)
  | Set (vs : List CQLValue)
deriving Repr

/-- Table spec of a column (`frame/response/result.rs`). -/
structure TableSpec where
  ks_name : List Nat
  table_name : List Nat
deriving DecidableEq, Repr

/-- Column spec (`frame/response/result.rs`). -/
structure ColumnSpec where
  table_spec : TableSpec
  name : List Nat
  typ : ColumnType
deriving DecidableEq, Repr

/-- Result metadata (`frame/response/result.rs`, struct `ResultMetadata`). -/
structure ResultMetadata where
  col_count : Nat
  paging_state : Option (List Nat)
  col_specs : List ColumnSpec
deriving Repr

/-- One decoded row (`frame/response/result.rs`, struct `Row`). -/
structure Row where
  columns : List (Option CQLValue)
deriving Repr

/-- A decoded Rows result page (`frame/response/result.rs`, struct `Rows`). -/
structure Rows where
  metadata : ResultMetadata
  rows_count : Nat
  rows : List Row
deriving Repr

/-- `to_ascii_lowercase` on a byte (`u8::to_ascii_lowercase`). -/
def to_ascii_lowercase (b : Nat) : Nat :=
  if 65 ≤ b ∧ b ≤ 90 then b + 32 else b

/-- `<[u8]>::eq_ignore_ascii_case`: equal length and pointwise equality
after ASCII lowercasing. -/
def eq_ignore_ascii_case (a b : List Nat) : Bool :=
  a.length == b.length &&
    (List.zip a b).all (fun p => to_ascii_lowercase p.1 == to_ascii_lowercase p.2)

/-- `query_is_setting_keyspace` (`transport/session.rs`): true iff the
query text (as bytes) is at least 4 bytes long and its first four bytes
match `use ` ASCII case-insensitively. -/
def query_is_setting_keyspace (query : List Nat) : Bool :=
  if query.length < 4 then
    false
  else
    eq_ignore_ascii_case (query.take 4) [117, 115, 101, 32]

/-- The dispatch at the top of `Session::query`
(`transport/session.rs`): if the text sets a keyspace the call is
redirected to `use_keyspace` and its unit result is mapped to "no
rows" (`none`); otherwise the single-page query path runs.  The two
`await` results are supplied as oracles. -/
def session_query (query_text : List Nat)
    (use_keyspace_result : Except QueryError Unit)
    (run_query_result : Except QueryError (Option (List Row))) :
    Except QueryError (Option (List Row)) :=
  if query_is_setting_keyspace query_text then
    use_keyspace_result.map (fun _ => none)
  else
    run_query_result

/-- A prepared statement (`statement/prepared_statement.rs`), reduced to
the fields the verified code reads: the server-assigned id, the
partition-key indexes of its metadata, and the statement text (bytes).
`Session::prepare` compares only `id`. -/
structure PreparedStatement where
  id : List Nat
  pk_indexes : List Nat
  statement : List Nat
deriving DecidableEq, Repr

/-- The `while let Some(res) = results.pop()` loop of `Session::prepare`
(`transport/session.rs`), acting on the reversed results vector (so
popping from the vector's back is walking this list front to first):
returns the final `first_ok` and the results left in the vector (still
in reversed order). -/
def find_first_ok_rev : List (Except QueryError PreparedStatement) →
    Option (Except QueryError PreparedStatement) × List (Except QueryError PreparedStatement)
  | [] => (none, [])
  | r :: rest =>
    match r with
    | Except.ok p => (some (Except.ok p), rest)
    | Except.error e =>
      let fr := find_first_ok_rev rest
      (some (fr.1.getD (Except.error e)), fr.2)

/-- The `for res in results` id-validation loop of `Session::prepare`:
any `Ok` result whose id differs from the chosen prepared id yields the
protocol error; `Err` results are ignored. -/
def check_ids_equal (prepared_id : List Nat) :
    List (Except QueryError PreparedStatement) → Except QueryError Unit
  | [] => Except.ok ()
  | (Except.ok statement) :: rest =>
      if prepared_id ≠ statement.id then
        Except.error (QueryError.ProtocolError
          "Prepared statement Ids differ, all should be equal")
      else
        check_ids_equal prepared_id rest
  | (Except.error _) :: rest => check_ids_equal prepared_id rest

/-- `Session::prepare` (`transport/session.rs`) after the concurrent
fan-out, as a function of the per-connection prepare results (in
connection order): pop results from the back until the first `Ok` (or
the last-popped `Err` if none), propagate an `Err` choice, then check
every remaining `Ok` id against the chosen one.  `none` models the
`first_ok.unwrap()` panic on an empty results vector. -/
def session_prepare (results : List (Except QueryError PreparedStatement)) :
    Option (Except QueryError PreparedStatement) :=
  match find_first_ok_rev results.reverse with
  | (none, _) => none
  | (some (Except.error e), _) => some (Except.error e)
  | (some (Except.ok prepared), rem_rev) =>
      some (match check_ids_equal prepared.id rem_rev.reverse with
        | Except.error e => Except.error e
        | Except.ok () => Except.ok prepared)

/-- Projection of a prepare result onto its `Ok` payload. -/
def exceptOk? : Except QueryError PreparedStatement → Option PreparedStatement
  | Except.ok p => some p
  | Except.error _ => none

/-- Behaviour script of one node of a query plan, for
`Session::run_query` (`transport/session.rs`): the result of
`choose_connection` on this node, and the successive results of
`do_query` on the acquired connection (consumed by same-node retries). -/
structure NodeScript (α : Type) where
  conn : Except QueryError Unit
  query_results : List (Except QueryError α)

/-- Outcome of `run_query`: a returned value, a returned error, or the
model artifact `outOfScript` when the scripted `do_query` results are
exhausted while the code would still be retrying. -/
inductive RunQueryResult (α : Type)
  | ok (r : α)
  | err (e : QueryError)
  | outOfScript
deriving DecidableEq, Repr

/-- The `'same_node_retries` loop of `Session::run_query`: perform the
request, return on success, otherwise consult the retry policy;
RetrySameNode loops on this connection, RetryNextNode hands
`(last_error, policy state)` back to the node loop, DontRetry returns
the last error. -/
def run_query_same_node {α σ : Type} (decide_fn : σ → QueryInfo → RetryDecision × σ)
    (idemp : Bool) (cons : Consistency) :
    List (Except QueryError α) → σ → Sum (RunQueryResult α) (QueryError × σ)
  | [], _ => Sum.inl RunQueryResult.outOfScript
  | (Except.ok r) :: _, _ => Sum.inl (RunQueryResult.ok r)
  | (Except.error e) :: rest, s =>
      let ds := decide_fn s { error := e, is_idempotent := idemp, consistency := cons }
      match ds.1 with
      | RetryDecision.RetrySameNode => run_query_same_node decide_fn idemp cons rest ds.2
      | RetryDecision.RetryNextNode => Sum.inr (e, ds.2)
      | RetryDecision.DontRetry => Sum.inl (RunQueryResult.err e)

/-- The `'nodes_in_plan` loop of `Session::run_query`
(`transport/session.rs`): for each node, acquire a connection — on
failure record the error as `last_error` and move directly to the next
node without consulting the retry policy — then run the same-node
retry loop; when the plan is exhausted return the last error (initially
the empty-plan protocol error). -/
def run_query {α σ : Type} (decide_fn : σ → QueryInfo → RetryDecision × σ)
    (idemp : Bool) (cons : Consistency) :
    List (NodeScript α) → σ → QueryError → RunQueryResult α
  | [], _, last_error => RunQueryResult.err last_error
  | node :: rest, s, _ =>
      match node.conn with
      | Except.error e => run_query decide_fn idemp cons rest s e
      | Except.ok _ =>
        match run_query_same_node decide_fn idemp cons node.query_results s with
        | Sum.inl res => res
        | Sum.inr (e, s2) => run_query decide_fn idemp cons rest s2 e

/-- Entry point of `run_query`: fresh policy instance and the
empty-plan error as the initial `last_error`. -/
def run_query_init {α σ : Type} (decide_fn : σ → QueryInfo → RetryDecision × σ)
    (idemp : Bool) (cons : Consistency) (plan : List (NodeScript α)) (s0 : σ) :
    RunQueryResult α :=
  run_query decide_fn idemp cons plan s0
    (QueryError.ProtocolError "Empty query plan - driver bug!")

/-- Response to a page request as the worker matches it
(`transport/iterator.rs`): a `Result::Rows` response, or any other
response (which the worker rejects as a protocol error).  The full
`Response` enum lives in `frame/response`, outside these sources; only
this distinction is read by the code under verification. -/
inductive ResponseModel
  | rows (r : Rows)
  | other

/-- State of `WorkerHelper::query_pages` when it leaves the loop body:
the pages sent to the channel (in order), the worker's `paging_state`
and retry-policy fields, the unconsumed response script, and `some e`
when the loop returned `Err(e)` — or `none` when the script ran out
with the loop still issuing page requests (the source loop has no
success exit at all). -/
structure PagesResult (σ : Type) where
  sent : List Rows
  paging_state : Option (List Nat)
  policy : σ
  remaining : List (Except QueryError ResponseModel)
  outcome : Option QueryError

/-- `rows.metadata.paging_state.take()` leaves the page sent downstream
with no paging state. -/
def strip_paging_state (r : Rows) : Rows :=
  { r with metadata := { r.metadata with paging_state := none } }

/-- `WorkerHelper::query_pages` (`transport/iterator.rs`) against a
script of responses: on `Err` propagate it; on a Rows response store
its `paging_state` into the worker, send the page, reset the retry
policy to the untouched template, and loop — unconditionally: the
source checks nothing about an absent `paging_state`, so the loop never
returns `Ok` and a terminal page is followed by another request. -/
def query_pages {σ : Type} (template : σ) :
    List (Except QueryError ResponseModel) → Option (List Nat) → σ → PagesResult σ
  | [], ps, pol =>
      { sent := [], paging_state := ps, policy := pol, remaining := [], outcome := none }
  | (Except.error e) :: rest, ps, pol =>
      { sent := [], paging_state := ps, policy := pol, remaining := rest, outcome := some e }
  | (Except.ok (ResponseModel.rows r)) :: rest, _, _ =>
      let res := query_pages template rest r.metadata.paging_state template
      { res with sent := strip_paging_state r :: res.sent }
  | (Except.ok ResponseModel.other) :: rest, ps, pol =>
      { sent := [], paging_state := ps, policy := pol, remaining := rest,
        outcome := some (QueryError.ProtocolError "Unexpected response to next page query") }

/-- Result of the `'same_node_retries` loop of `WorkerHelper::work`:
either the script ran out with the worker still looping, or control
passed back to the node loop (which happens both for RetryNextNode and
— via `break 'same_node_retries` — for DontRetry) carrying the last
error, the worker state and the pages sent so far. -/
inductive NodeLoopResult (σ : Type)
  | finishedScript (sent : List Rows)
  | nextNode (e : QueryError) (ps : Option (List Nat)) (pol : σ) (sent : List Rows)

/-- The `'same_node_retries` loop of `WorkerHelper::work`
(`transport/iterator.rs`): run `query_pages` on this connection; on an
error consult the retry policy; RetrySameNode loops here (same
connection, same `paging_state`), RetryNextNode and DontRetry both
leave the inner loop — DontRetry through `break 'same_node_retries`,
after which the `for` loop advances to the next node. -/
def work_same_node {σ : Type} (decide_fn : σ → QueryInfo → RetryDecision × σ)
    (template : σ) (idemp : Bool) (cons : Consistency)
    (responses : List (Except QueryError ResponseModel)) (ps : Option (List Nat))
    (pol : σ) : NodeLoopResult σ :=
  let pr := query_pages template responses ps pol
  match h : pr.outcome with
  | none => NodeLoopResult.finishedScript pr.sent
  | some e =>
      let ds := decide_fn pr.policy
        { error := e, is_idempotent := idemp, consistency := cons }
      match ds.1 with
      | RetryDecision.RetrySameNode =>
          match work_same_node decide_fn template idemp cons pr.remaining
              pr.paging_state ds.2 with
          | NodeLoopResult.finishedScript sent2 =>
              NodeLoopResult.finishedScript (pr.sent ++ sent2)
          | NodeLoopResult.nextNode e2 ps2 pol2 sent2 =>
              NodeLoopResult.nextNode e2 ps2 pol2 (pr.sent ++ sent2)
      | RetryDecision.RetryNextNode => NodeLoopResult.nextNode e pr.paging_state ds.2 pr.sent
      | RetryDecision.DontRetry => NodeLoopResult.nextNode e pr.paging_state ds.2 pr.sent
termination_by responses.length
decreasing_by
  have key : ∀ (rs : List (Except QueryError ResponseModel)) (ps0 : Option (List Nat))
      (pol0 : σ), (query_pages template rs ps0 pol0).outcome ≠ none →
      (query_pages template rs ps0 pol0).remaining.length < rs.length := by
    intro rs
    induction rs with
    | nil =>
        intro ps0 pol0 hne
        simp [query_pages] at hne
    | cons x rest ih =>
        intro ps0 pol0 hne
        cases x with
        | error e => simp [query_pages]
        | ok rm =>
            cases rm with
            | rows r =>
                have h2 := ih r.metadata.paging_state template
                simp only [query_pages, List.length_cons] at hne ⊢
                have := h2 hne
                omega
            | other => simp [query_pages]
  simp_wf
  exact key responses ps pol (fun hc => Option.noConfusion (h.symm.trans hc))

/-- Behaviour script of one node of the paging worker's query plan:
connection acquisition result and the responses of the connection. -/
structure ConnScript where
  conn : Except QueryError Unit
  responses : List (Except QueryError ResponseModel)

/-- Final observation of the paging worker: `terminated e sent` means
the worker sent the pages, then `Err e`, and dropped the sender
(closing the channel); `stillRunning sent` is the model artifact for a
script exhausted while the worker keeps issuing page requests. -/
inductive WorkOutcome
  | terminated (e : QueryError) (sent : List Rows)
  | stillRunning (sent : List Rows)

/-- `WorkerHelper::work` (`transport/iterator.rs`): for each node of
the plan, acquire a connection (failure records the error and moves to
the next node), run the same-node retry loop; when the plan is
exhausted send the last error and drop the channel. -/
def work {σ : Type} (decide_fn : σ → QueryInfo → RetryDecision × σ) (template : σ)
    (idemp : Bool) (cons : Consistency) :
    List ConnScript → Option (List Nat) → σ → QueryError → List Rows → WorkOutcome
  | [], _, _, last_error, sent => WorkOutcome.terminated last_error sent
  | node :: rest, ps, pol, _, sent =>
      match node.conn with
      | Except.error e => work decide_fn template idemp cons rest ps pol e sent
      | Except.ok _ =>
        match work_same_node decide_fn template idemp cons node.responses ps pol with
        | NodeLoopResult.finishedScript s2 => WorkOutcome.stillRunning (sent ++ s2)
        | NodeLoopResult.nextNode e ps2 pol2 s2 =>
            work decide_fn template idemp cons rest ps2 pol2 e (sent ++ s2)

/-- Entry point of the worker: no paging state yet, a fresh clone of
the retry-policy template, and the empty-plan error as `last_error`. -/
def work_init {σ : Type} (decide_fn : σ → QueryInfo → RetryDecision × σ) (template : σ)
    (idemp : Bool) (cons : Consistency) (plan : List ConnScript) : WorkOutcome :=
  work decide_fn template idemp cons plan none template
    (QueryError.ProtocolError "Empty query plan - driver bug!") []

/-- A concrete one-row final page whose `paging_state` is absent. -/
def terminalPage : Rows :=
  { metadata :=
      { col_count := 1, paging_state := none,
        col_specs := [{ table_spec := { ks_name := [107], table_name := [116] },
                        name := [97], typ := ColumnType.Int }] },
    rows_count := 1,
    rows := [{ columns := [some (CQLValue.Int 3)] }] }

/-- Is a byte a UTF-8 continuation byte (10xxxxxx)? -/
def is_cont (b : Nat) : Bool := 128 ≤ b && b ≤ 191

/-- `str::from_utf8` validity (standard UTF-8 well-formedness, with
overlong and surrogate rejection), on byte lists.  Rust strings are
modelled as their UTF-8 bytes, so a successful `from_utf8` is exactly
this check. -/
def utf8_valid : List Nat → Bool
  | [] => true
  | b :: rest =>
    if b ≤ 127 then
      utf8_valid rest
    else if 194 ≤ b ∧ b ≤ 223 then
      match rest with
      | c1 :: rest2 => is_cont c1 && utf8_valid rest2
      | [] => false
    else if b = 224 then
      match rest with
      | c1 :: c2 :: rest2 => (160 ≤ c1 && c1 ≤ 191) && is_cont c2 && utf8_valid rest2
      | _ => false
    else if (225 ≤ b ∧ b ≤ 236) ∨ (238 ≤ b ∧ b ≤ 239) then
      match rest with
      | c1 :: c2 :: rest2 => is_cont c1 && is_cont c2 && utf8_valid rest2
      | _ => false
    else if b = 237 then
      match rest with
      | c1 :: c2 :: rest2 => (128 ≤ c1 && c1 ≤ 159) && is_cont c2 && utf8_valid rest2
      | _ => false
    else if b = 240 then
      match rest with
      | c1 :: c2 :: c3 :: rest2 =>
          (144 ≤ c1 && c1 ≤ 191) && is_cont c2 && is_cont c3 && utf8_valid rest2
      | _ => false
    else if 241 ≤ b ∧ b ≤ 243 then
      match rest with
      | c1 :: c2 :: c3 :: rest2 => is_cont c1 && is_cont c2 && is_cont c3 && utf8_valid rest2
      | _ => false
    else if b = 244 then
      match rest with
      | c1 :: c2 :: c3 :: rest2 =>
          (128 ≤ c1 && c1 ≤ 143) && is_cont c2 && is_cont c3 && utf8_valid rest2
      | _ => false
    else
      false

/-- `<[u8]>::is_ascii`: every byte below 128. -/
def list_is_ascii (l : List Nat) : Bool := l.all (fun b => b < 128)

/-- Modelled from the spec: `types::read_short` (`frame/types.rs` is
not in the sources) — a big-endian u16. -/
def read_short : List Nat → Except String (Nat × List Nat)
  | b0 :: b1 :: rest => Except.ok (b0 * 256 + b1, rest)
  | _ => Except.error "EOF while reading short"

/-- Modelled from the spec: `types::read_int` — a big-endian i32 in
two's complement. -/
def read_int : List Nat → Except String (Int × List Nat)
  | b0 :: b1 :: b2 :: b3 :: rest =>
      let n : Nat := b0 * 16777216 + b1 * 65536 + b2 * 256 + b3
      Except.ok (if n < 2147483648 then (n : Int) else (n : Int) - 4294967296, rest)
  | _ => Except.error "EOF while reading int"

/-- A big-endian i64 in two's complement (`ReadBytesExt::read_i64`). -/
def read_long : List Nat → Except String (Int × List Nat)
  | b0 :: b1 :: b2 :: b3 :: b4 :: b5 :: b6 :: b7 :: rest =>
      let n : Nat := b0 * 72057594037927936 + b1 * 281474976710656 + b2 * 1099511627776 +
        b3 * 4294967296 + b4 * 16777216 + b5 * 65536 + b6 * 256 + b7
      Except.ok (if n < 9223372036854775808 then (n : Int)
        else (n : Int) - 18446744073709551616, rest)
  | _ => Except.error "EOF while reading long"

/-- Take exactly `n` bytes from the front of the buffer. -/
def read_raw (n : Nat) (buf : List Nat) : Except String (List Nat × List Nat) :=
  if n ≤ buf.length then Except.ok (buf.take n, buf.drop n)
  else Except.error "EOF while reading raw bytes"

/-- Modelled from the spec: `types::read_string` — a u16 length
followed by that many UTF-8 bytes. -/
def read_string (buf : List Nat) : Except String (List Nat × List Nat) := do
  let (len, buf) ← read_short buf
  let (raw, buf) ← read_raw len buf
  if utf8_valid raw then Except.ok (raw, buf) else Except.error "invalid utf8"

/-- Modelled from the spec: `types::read_bytes` — an i32 length (which
must be non-negative here) followed by that many bytes. -/
def read_bytes (buf : List Nat) : Except String (List Nat × List Nat) := do
  let (len, buf) ← read_int buf
  if len < 0 then Except.error "negative bytes length"
  else read_raw len.toNat buf

/-- Modelled from the spec: `types::read_bytes_opt` — an i32 length,
`-1` meaning NULL, otherwise that many bytes. -/
def read_bytes_opt (buf : List Nat) :
    Except String (Option (List Nat) × List Nat) := do
  let (len, buf) ← read_int buf
  if len < 0 then
    if len = -1 then Except.ok (none, buf)
    else Except.error "invalid negative bytes length"
  else do
    let (raw, buf) ← read_raw len.toNat buf
    Except.ok (some raw, buf)

/-- Bit `k` of an i32 in two's complement (`flags & mask != 0` for a
single-bit mask). -/
def test_bit (i : Int) (k : Nat) : Bool :=
  decide ((2 ^ k : Int) ≤ i % (2 ^ (k + 1) : Int))

/-- `deser_table_spec` (`frame/response/result.rs`). -/
def deser_table_spec (buf : List Nat) : Except String (TableSpec × List Nat) := do
  let (ks_name, buf) ← read_string buf
  let (table_name, buf) ← read_string buf
  Except.ok ({ ks_name := ks_name, table_name := table_name }, buf)

/-- `deser_type` (`frame/response/result.rs`), with the two-byte
big-endian short id read inline. -/
def deser_type : List Nat → Except String (ColumnType × List Nat)
  | b0 :: b1 :: buf =>
      let id := b0 * 256 + b1
      if id = 1 then Except.ok (ColumnType.Ascii, buf)
      else if id = 2 then Except.ok (ColumnType.BigInt, buf)
      else if id = 9 then Except.ok (ColumnType.Int, buf)
      else if id = 13 then Except.ok (ColumnType.Text, buf)
      else if id = 16 then Except.ok (ColumnType.Inet, buf)
      else if id = 34 then do
        let (t, buf2) ← deser_type buf
        Except.ok (ColumnType.Set t, buf2)
      else Except.error "Type not yet implemented"
  | _ => Except.error "EOF while reading short"

/-- `deser_col_specs` (`frame/response/result.rs`): `col_count`
specs, each with a per-column table spec unless a global one is given. -/
def deser_col_specs (global_table_spec : Option TableSpec) :
    Nat → List Nat → Except String (List ColumnSpec × List Nat)
  | 0, buf => Except.ok ([], buf)
  | n + 1, buf => do
      let (table_spec, buf) ←
        match global_table_spec with
        | some spec => (Except.ok (spec, buf) : Except String (TableSpec × List Nat))
        | none => deser_table_spec buf
      let (name, buf) ← read_string buf
      let (typ, buf) ← deser_type buf
      let (rest, buf) ← deser_col_specs global_table_spec n buf
      Except.ok ({ table_spec := table_spec, name := name, typ := typ } :: rest, buf)

/-- `deser_result_metadata` (`frame/response/result.rs`). -/
def deser_result_metadata (buf : List Nat) :
    Except String (ResultMetadata × List Nat) := do
  let (flags, buf) ← read_int buf
  let global_tables_spec := test_bit flags 0
  let has_more_pages := test_bit flags 1
  let no_metadata := test_bit flags 2
  let (col_count_i, buf) ← read_int buf
  if col_count_i < 0 then
    Except.error "Invalid negative column count"
  else do
    let col_count := col_count_i.toNat
    let (paging_state, buf) ←
      if has_more_pages then do
        let (b, buf) ← read_bytes buf
        (Except.ok ((some b : Option (List Nat)), buf) :
          Except String (Option (List Nat) × List Nat))
      else
        Except.ok ((none : Option (List Nat)), buf)
    if no_metadata then
      Except.ok (ResultMetadata.mk col_count paging_state [], buf)
    else do
      let (global_table_spec, buf) ←
        if global_tables_spec then do
          let (ts, buf) ← deser_table_spec buf
          (Except.ok ((some ts : Option TableSpec), buf) :
            Except String (Option TableSpec × List Nat))
        else
          Except.ok ((none : Option TableSpec), buf)
      let (col_specs, buf) ← deser_col_specs global_table_spec col_count buf
      Except.ok (ResultMetadata.mk col_count paging_state col_specs, buf)

/-- The `for _ in 0..len` element loop of the `Set` arm of
`deser_cql_value`: each element is a `[bytes]` slice decoded by the
element decoder `f`. -/
def deser_set_elems (f : List Nat → Except String (CQLValue × List Nat)) :
    Nat → List Nat → Except String (List CQLValue × List Nat)
  | 0, buf => Except.ok ([], buf)
  | n + 1, buf => do
      let (b, buf1) ← read_bytes buf
      let (v, _) ← f b
      let (vs, buf2) ← deser_set_elems f n buf1
      Except.ok (v :: vs, buf2)

/-- `deser_cql_value` (`frame/response/result.rs`): decode one value of
the given column type from its sliced cell buffer.  `Ascii`/`Text` do
not advance the buffer (the source's `str::from_utf8(buf)` reads it
whole without consuming). -/
def deser_cql_value : ColumnType → List Nat → Except String (CQLValue × List Nat)
  | ColumnType.Ascii, buf =>
      if list_is_ascii buf then
        if utf8_valid buf then Except.ok (CQLValue.Ascii buf, buf)
        else Except.error "invalid utf8"
      else Except.error "Not an ascii string"
  | ColumnType.Int, buf =>
      if buf.length = 4 then do
        let (i, rest) ← read_int buf
        Except.ok (CQLValue.Int i, rest)
      else Except.error "Expected buffer length of 4 bytes"
  | ColumnType.BigInt, buf =>
      if buf.length = 8 then do
        let (i, rest) ← read_long buf
        Except.ok (CQLValue.BigInt i, rest)
      else Except.error "Expected buffer length of 8 bytes"
  | ColumnType.Text, buf =>
      if utf8_valid buf then Except.ok (CQLValue.Text buf, buf)
      else Except.error "invalid utf8"
  | ColumnType.Inet, buf =>
      if buf.length = 4 then
        Except.ok (CQLValue.Inet (IpAddrModel.V4 (buf.take 4)), buf.drop 4)
      else if buf.length = 16 then
        Except.ok (CQLValue.Inet (IpAddrModel.V6 (buf.take 16)), buf.drop 16)
      else Except.error "Invalid number of bytes for inet value"
  | ColumnType.Set t, buf => do
      let (len, buf2) ← read_int buf
      if len < 0 then Except.error "Invalid number of set elements"
      else do
        let (vs, buf3) ← deser_set_elems (fun bb => deser_cql_value t bb) len.toNat buf2
        Except.ok (CQLValue.Set vs, buf3)

/-- The per-row column loop of `deser_rows`: for each column spec,
read an optional `[bytes]` cell (`-1` length means NULL) and decode a
present cell with `deser_cql_value` at that column's type.  After the
source's `col_count == col_specs.len()` assertion these are in
bijection, so the loop runs over the specs. -/
def deser_row_columns : List ColumnSpec → List Nat →
    Except String (List (Option CQLValue) × List Nat)
  | [], buf => Except.ok ([], buf)
  | spec :: rest, buf => do
      let (ob, buf1) ← read_bytes_opt buf
      match ob with
      | some b => do
          let (v, _) ← deser_cql_value spec.typ b
          let (vs, buf2) ← deser_row_columns rest buf1
          Except.ok (some v :: vs, buf2)
      | none => do
          let (vs, buf2) ← deser_row_columns rest buf1
          Except.ok (none :: vs, buf2)

/-- The row loop of `deser_rows`: `rows_count` rows, each of
`col_count` columns. -/
def deser_rows_loop (col_specs : List ColumnSpec) :
    Nat → List Nat → Except String (List Row × List Nat)
  | 0, buf => Except.ok ([], buf)
  | n + 1, buf => do
      let (cols, buf1) ← deser_row_columns col_specs buf
      let (rest, buf2) ← deser_rows_loop col_specs n buf1
      Except.ok ({ columns := cols } :: rest, buf2)

/-- `deser_rows` (`frame/response/result.rs`): metadata, the
`col_count == col_specs.len()` assertion (modelled as a failure),
`rows_count`, then the rows. -/
def deser_rows (buf : List Nat) : Except String (Rows × List Nat) := do
  let (metadata, buf) ← deser_result_metadata buf
  if metadata.col_count = metadata.col_specs.length then do
    let (rows_count_i, buf) ← read_int buf
    if rows_count_i < 0 then
      Except.error "Invalid negative number of rows"
    else do
      let (rows, buf2) ← deser_rows_loop metadata.col_specs rows_count_i.toNat buf
      Except.ok (Rows.mk metadata rows_count_i.toNat rows, buf2)
  else
    Except.error "assertion failed, col_count must equal col_specs.len()"

/-- Does a decoded value structurally match a column type?  Spec side
of claim C8. -/
def typeMatches : ColumnType → CQLValue → Bool
  | ColumnType.Ascii, CQLValue.Ascii _ => true
  | ColumnType.Int, CQLValue.Int _ => true
  | ColumnType.BigInt, CQLValue.BigInt _ => true
  | ColumnType.Text, CQLValue.Text _ => true
  | ColumnType.Inet, CQLValue.Inet _ => true
  | ColumnType.Set t, CQLValue.Set vs => vs.attach.all (fun x => typeMatches t x.1)
  | _, _ => false

/-- Spec-side big-endian i32 encoder for non-negative lengths, used to
state the slicing clause of claim C8. -/
def i32_be (n : Nat) : List Nat :=
  [n / 16777216 % 256, n / 65536 % 256, n / 256 % 256, n % 256]

theorem decide_should_retry_state (s : DefaultRetryPolicy) (q : QueryInfo) :
    (decide_should_retry s q).2 =
      { was_unavailable_retry := s.was_unavailable_retry || isUnavailableErr q.error,
        was_read_timeout_retry :=
          s.was_read_timeout_retry || readTimeoutRetryable q.error } := by
  obtain ⟨su, sr⟩ := s
  rcases q with ⟨e, idem, cons⟩
  rcases e with ⟨db, msg⟩ | bq | io | p
  · rcases db <;> cases su <;> cases sr <;>
      simp [decide_should_retry, isUnavailableErr, readTimeoutRetryable] <;>
      (try (split <;> simp_all))
  · cases su <;> cases sr <;> simp [decide_should_retry, isUnavailableErr, readTimeoutRetryable]
  · cases su <;> cases sr <;>
      simp [decide_should_retry, isUnavailableErr, readTimeoutRetryable] <;>
      (try (split <;> simp_all))
  · cases su <;> cases sr <;> simp [decide_should_retry, isUnavailableErr, readTimeoutRetryable]

theorem decide_run_state_spec (pre : List QueryInfo) :
    decide_run_state DefaultRetryPolicy.new pre =
      { was_unavailable_retry := pre.any (fun p => isUnavailableErr p.error),
        was_read_timeout_retry := pre.any (fun p => readTimeoutRetryable p.error) } := by
  suffices h : ∀ (s : DefaultRetryPolicy) (l : List QueryInfo),
      decide_run_state s l =
        { was_unavailable_retry := s.was_unavailable_retry ||
            l.any (fun p => isUnavailableErr p.error),
          was_read_timeout_retry := s.was_read_timeout_retry ||
            l.any (fun p => readTimeoutRetryable p.error) } by
    simpa [DefaultRetryPolicy.new] using h DefaultRetryPolicy.new pre
  intro s l
  induction l generalizing s with
  | nil => simp [decide_run_state]
  | cons q qs ih =>
      simp [decide_run_state, decide_should_retry_state, ih, Bool.or_assoc]

/-- C1: for every query-failure input fed to a `DefaultRetryPolicy`
instance (with `pre` the failure reports the instance has already seen),
`decide_should_retry` returns exactly the decision of the spec table:
IOError, Overloaded, ServerError and TruncateError give RetryNextNode iff
idempotent; Unavailable gives RetryNextNode on the instance's first
Unavailable and DontRetry on every later one; ReadTimeout gives
RetrySameNode iff `received >= required`, `data_present`, and no earlier
retryable ReadTimeout was seen; WriteTimeout gives RetrySameNode iff
idempotent and write_type is BatchLog; IsBootstrapping always gives
RetryNextNode; every other error gives DontRetry. -/
theorem C1_default_retry_policy_matches_spec_table (pre : List QueryInfo) (q : QueryInfo) :
    (decide_should_retry (decide_run_state DefaultRetryPolicy.new pre) q).1 =
      specTableDecision pre q := by
  rw [decide_run_state_spec]
  rcases q with ⟨e, idem, cons⟩
  rcases e with ⟨db, msg⟩ | bq | io | p
  · rcases db <;>
      cases hU : pre.any (fun p => isUnavailableErr p.error) <;>
      cases hR : pre.any (fun p => readTimeoutRetryable p.error) <;>
      simp only [decide_should_retry, specTableDecision, hU, hR] <;>
      (try simp) <;>
      (try (split <;> simp_all))
  · rfl
  · cases idem <;> simp [decide_should_retry, specTableDecision]
  · rfl

theorem compute_pk_loop_ok (pks : List Nat) (values : SerializedValues) :
    (∀ i ∈ pks, i < values.length) →
    (∀ i ∈ pks, ∀ v, values.get? i = some (some v) → v.length < 65536) →
    ∀ buf, compute_pk_loop pks values buf =
      Except.ok (buf ++ (pks.map (pk_component values)).flatten) := by
  intro hrange hfit
  induction pks with
  | nil => intro buf; simp [compute_pk_loop]
  | cons i rest ih =>
      intro buf
      have hi : i < values.length := hrange i (by simp)
      have hsome : values.get? i ≠ none := by
        rw [List.get?_eq_getElem?]
        simp [List.getElem?_eq_getElem hi]
      cases hv : values.get? i with
      | none => exact absurd hv hsome
      | some ov =>
          cases ov with
          | none =>
              rw [compute_pk_loop, hv]
              rw [ih (fun j hj => hrange j (by simp [hj]))
                  (fun j hj v h => hfit j (by simp [hj]) v h) buf]
              rw [List.get?_eq_getElem?] at hv
              simp [pk_component, List.get?_eq_getElem?, hv]
          | some v =>
              have hlen : v.length < 65536 := hfit i (by simp) v hv
              rw [compute_pk_loop, hv]
              simp only [hlen, if_pos]
              rw [ih (fun j hj => hrange j (by simp [hj]))
                  (fun j hj v h => hfit j (by simp [hj]) v h)]
              rw [List.get?_eq_getElem?] at hv
              simp [pk_component, List.get?_eq_getElem?, hv]

theorem compute_pk_loop_no_pk_index (pks : List Nat) (values : SerializedValues)
    (buf : List Nat) (a b : Nat)
    (h : compute_pk_loop pks values buf =
      Except.error (PartitionKeyError.NoPkIndexValue a b)) :
    a ∈ pks ∧ values.length ≤ a ∧ b = values.length := by
  induction pks generalizing buf with
  | nil => simp [compute_pk_loop] at h
  | cons i rest ih =>
      rw [compute_pk_loop] at h
      cases hv : values.get? i with
      | none =>
          rw [hv] at h
          simp only [Except.error.injEq, PartitionKeyError.NoPkIndexValue.injEq] at h
          obtain ⟨rfl, rfl⟩ := h
          refine ⟨by simp, ?_, rfl⟩
          by_contra hlt
          push_neg at hlt
          rw [List.get?_eq_getElem?] at hv
          simp [List.getElem?_eq_getElem hlt] at hv
      | some ov =>
          rw [hv] at h
          cases ov with
          | none =>
              obtain ⟨ha, hle, hb⟩ := ih buf h
              exact ⟨by simp [ha], hle, hb⟩
          | some v =>
              by_cases hlen : v.length < 65536
              · simp only [hlen, if_pos] at h
                obtain ⟨ha, hle, hb⟩ := ih _ h
                exact ⟨by simp [ha], hle, hb⟩
              · simp [hlen] at h

theorem compute_partition_key_ne_one (pks : List Nat) (values : SerializedValues)
    (h : pks.length ≠ 1) :
    compute_partition_key pks values = compute_pk_loop pks values [] := by
  match pks with
  | [] => rfl
  | [a] => simp at h
  | a :: b :: rest => rfl

theorem compute_pk_loop_too_long (pre : List Nat) (i : Nat) (post : List Nat)
    (values : SerializedValues) (v : List Nat)
    (hrange : ∀ j ∈ pre, j < values.length)
    (hfit : ∀ j ∈ pre, ∀ w, values.get? j = some (some w) → w.length < 65536)
    (hv : values.get? i = some (some v)) (hlong : 65536 ≤ v.length) :
    ∀ buf, compute_pk_loop (pre ++ i :: post) values buf =
      Except.error (PartitionKeyError.ValueTooLong v.length) := by
  induction pre with
  | nil =>
      intro buf
      rw [List.nil_append, compute_pk_loop, hv]
      simp [Nat.not_lt.mpr hlong]
  | cons j rest ih =>
      intro buf
      have hj : j < values.length := hrange j (by simp)
      rw [List.cons_append, compute_pk_loop]
      cases hvj : values.get? j with
      | none =>
          rw [List.get?_eq_getElem?] at hvj
          simp [List.getElem?_eq_getElem hj] at hvj
      | some ov =>
          cases ov with
          | none =>
              exact ih (fun x hx => hrange x (by simp [hx]))
                (fun x hx w hw => hfit x (by simp [hx]) w hw) buf
          | some w =>
              have hw : w.length < 65536 := hfit j (by simp) w hvj
              simp only [hw, if_pos]
              exact ih (fun x hx => hrange x (by simp [hx]))
                (fun x hx w hw => hfit x (by simp [hx]) w hw) _

/-- C3: with a single pk index the partition key is exactly the raw
serialized bytes of the indexed value (no length prefix); with two or
more pk indexes it is the concatenation, in the server-provided
(unsorted) `pk_indexes` order, of `[u16 big-endian length][value
bytes][0x00]` per indexed value; and on the spec's concrete example E3,
`pk_indexes = [0]` with values `[int 3, int 4]` gives the 4 bytes of
big-endian 3, while `pk_indexes = [0, 1]` gives
`[0,4, 0,0,0,3, 0, 0,4, 0,0,0,4, 0]`. -/
theorem C3_compute_partition_key_layout :
    (∀ (i : Nat) (v : List Nat) (values : SerializedValues),
      values.get? i = some (some v) →
      compute_partition_key [i] values = Except.ok v) ∧
    (∀ (pk_indexes : List Nat) (values : SerializedValues),
      2 ≤ pk_indexes.length →
      (∀ i ∈ pk_indexes, ∃ v, values.get? i = some (some v) ∧ v.length < 65536) →
      compute_partition_key pk_indexes values =
        Except.ok ((pk_indexes.map (pk_component values)).flatten)) ∧
    compute_partition_key [0] [some [0, 0, 0, 3], some [0, 0, 0, 4]] =
      Except.ok [0, 0, 0, 3] ∧
    compute_partition_key [0, 1] [some [0, 0, 0, 3], some [0, 0, 0, 4]] =
      Except.ok [0, 4, 0, 0, 0, 3, 0, 0, 4, 0, 0, 0, 4, 0] := by
  refine ⟨?_, ?_, rfl, rfl⟩
  · intro i v values hv
    rw [List.get?_eq_getElem?] at hv
    simp [compute_partition_key, hv]
  · intro pk_indexes values hlen hvals
    have hne : pk_indexes.length ≠ 1 := by omega
    rw [compute_partition_key_ne_one _ _ hne]
    have hrange : ∀ i ∈ pk_indexes, i < values.length := by
      intro i hi
      obtain ⟨v, hv, _⟩ := hvals i hi
      rw [List.get?_eq_getElem?] at hv
      exact (List.getElem?_eq_some_iff.mp hv).1
    have hfit : ∀ i ∈ pk_indexes, ∀ v, values.get? i = some (some v) → v.length < 65536 := by
      intro i hi v hv
      obtain ⟨w, hw, hwl⟩ := hvals i hi
      rw [hv] at hw
      cases hw
      exact hwl
    simpa using compute_pk_loop_ok pk_indexes values hrange hfit []

theorem C3_compute_partition_key_layout_witness :
    compute_partition_key [1] [some [9], some [7, 7]] = Except.ok [7, 7] ∧
    compute_partition_key [1, 0] [some [5], some [6]] =
      Except.ok [0, 1, 6, 0, 0, 1, 5, 0] := by
  constructor
  · exact C3_compute_partition_key_layout.1 1 [7, 7] [some [9], some [7, 7]] rfl
  · have h := C3_compute_partition_key_layout.2.1 [1, 0] [some [5], some [6]]
      (by decide)
      (by
        intro i hi
        simp only [List.mem_cons, List.not_mem_nil, or_false] at hi
        rcases hi with rfl | rfl
        · exact ⟨[6], rfl, by decide⟩
        · exact ⟨[5], rfl, by decide⟩)
    simpa [pk_component, u16_be] using h

/-- C9: `compute_partition_key` never fails on a NULL partition-key
value: with a single pk index a NULL value yields the empty key, with
any other number of pk indexes a NULL component appends no
length-value-separator triple (the `pk_component` of a NULL is empty)
and the function returns `Ok`; `NoPkIndexValue` arises only when some
pk index is out of range of the bound-values sequence. -/
theorem C9_null_pk_values :
    (∀ (i : Nat) (values : SerializedValues),
      values.get? i = some none →
      compute_partition_key [i] values = Except.ok []) ∧
    (∀ (pk_indexes : List Nat) (values : SerializedValues),
      pk_indexes.length ≠ 1 →
      (∀ i ∈ pk_indexes, i < values.length) →
      (∀ i ∈ pk_indexes, ∀ v, values.get? i = some (some v) → v.length < 65536) →
      compute_partition_key pk_indexes values =
        Except.ok ((pk_indexes.map (pk_component values)).flatten)) ∧
    (∀ (i : Nat) (values : SerializedValues), values.get? i = some none →
      pk_component values i = []) ∧
    (∀ (pk_indexes : List Nat) (values : SerializedValues) (a b : Nat),
      compute_partition_key pk_indexes values =
        Except.error (PartitionKeyError.NoPkIndexValue a b) →
      a ∈ pk_indexes ∧ values.length ≤ a) := by
  refine ⟨?_, ?_, ?_, ?_⟩
  · intro i values hv
    rw [List.get?_eq_getElem?] at hv
    simp [compute_partition_key, hv]
  · intro pk_indexes values hne hrange hfit
    rw [compute_partition_key_ne_one _ _ hne]
    simpa using compute_pk_loop_ok pk_indexes values hrange hfit []
  · intro i values hv
    rw [List.get?_eq_getElem?] at hv
    simp [pk_component, List.get?_eq_getElem?, hv]
  · intro pk_indexes values a b h
    match pk_indexes with
    | [pk0] =>
        rw [compute_partition_key] at h
        cases hv : values.get? pk0 with
        | none =>
            rw [hv] at h
            simp only [Except.error.injEq, PartitionKeyError.NoPkIndexValue.injEq] at h
            obtain ⟨rfl, rfl⟩ := h
            refine ⟨by simp, ?_⟩
            rw [List.get?_eq_getElem?, List.getElem?_eq_none_iff] at hv
            exact hv
        | some ov =>
            rw [hv] at h
            cases ov <;> simp at h
    | [] =>
        rw [compute_partition_key_ne_one _ _ (by simp)] at h
        simp [compute_pk_loop] at h
    | p :: q :: rest =>
        rw [compute_partition_key_ne_one _ _ (by simp)] at h
        exact ⟨(compute_pk_loop_no_pk_index _ _ _ _ _ h).1,
          (compute_pk_loop_no_pk_index _ _ _ _ _ h).2.1⟩

theorem C9_null_pk_values_witness :
    compute_partition_key [0] [none] = Except.ok [] ∧
    compute_partition_key [0, 1] [none, some [9]] = Except.ok [0, 1, 9, 0] ∧
    ((2 : Nat) ∈ [0, 2] ∧ (1 : Nat) ≤ 2) := by
  refine ⟨?_, ?_, ?_⟩
  · exact C9_null_pk_values.1 0 [none] rfl
  · have h := C9_null_pk_values.2.1 [0, 1] [none, some [9]] (by decide) (by decide)
      (by
        intro i hi v hv
        simp only [List.mem_cons, List.not_mem_nil, or_false] at hi
        rcases hi with rfl | rfl
        · simp at hv
        · simp only [List.get?] at hv
          cases hv
          decide)
    simpa [pk_component, u16_be] using h
  · exact C9_null_pk_values.2.2.2 [0, 2] [some [1]] 2 1 (by rfl)

/-- C7 counterexample: with a single pk index (`pk_indexes = [0]`) a
bound value of 65536 bytes — longer than `u16::MAX` — does NOT make
`compute_partition_key` fail: the single-index branch emits the raw
bytes with no length check, and `calculate_token` succeeds, so the
claim as stated (every over-long component fails) is false. -/
theorem C7_counterexample_single_pk_no_length_check :
    (List.replicate 65536 (0 : Nat)).length = 65536 ∧
    compute_partition_key [0] [some (List.replicate 65536 (0 : Nat))] =
      Except.ok (List.replicate 65536 (0 : Nat)) ∧
    calculate_token [0] [some (List.replicate 65536 (0 : Nat))] =
      Except.ok (murmur3_token (List.replicate 65536 (0 : Nat))) :=
  ⟨List.length_replicate 65536 0, rfl, rfl⟩

/-- C7 (amended): in the compound branch (pk_indexes not of length 1),
a partition-key component longer than `u16::MAX` = 65535 bytes makes
`compute_partition_key` fail with `ValueTooLong` carrying the value's
length, and `calculate_token` surfaces it as
`BadQuery::ValuesTooLongForKey(len, 65535)`; with a single pk index the
raw bytes are emitted with no length check at all. -/
theorem C7_value_too_long_compound_only :
    (∀ (pre : List Nat) (i : Nat) (post : List Nat)
        (values : SerializedValues) (v : List Nat),
      (∀ j ∈ pre, j < values.length) →
      (∀ j ∈ pre, ∀ w, values.get? j = some (some w) → w.length < 65536) →
      values.get? i = some (some v) → 65536 ≤ v.length →
      (pre ++ i :: post).length ≠ 1 →
      compute_partition_key (pre ++ i :: post) values =
          Except.error (PartitionKeyError.ValueTooLong v.length) ∧
      calculate_token (pre ++ i :: post) values =
          Except.error (QueryError.BadQuery
            (BadQuery.ValuesTooLongForKey v.length 65535))) ∧
    (∀ (i : Nat) (v : List Nat) (values : SerializedValues),
      values.get? i = some (some v) →
      compute_partition_key [i] values = Except.ok v) := by
  constructor
  · intro pre i post values v hrange hfit hv hlong hne
    have hkey : compute_partition_key (pre ++ i :: post) values =
        Except.error (PartitionKeyError.ValueTooLong v.length) := by
      rw [compute_partition_key_ne_one _ _ hne]
      exact compute_pk_loop_too_long pre i post values v hrange hfit hv hlong []
    refine ⟨hkey, ?_⟩
    rw [calculate_token, hkey]
  · intro i v values hv
    rw [List.get?_eq_getElem?] at hv
    simp [compute_partition_key, hv]

theorem C7_value_too_long_compound_only_witness :
    compute_partition_key [0, 1] [some (List.replicate 65536 (7 : Nat)), some [1]] =
      Except.error (PartitionKeyError.ValueTooLong 65536) ∧
    calculate_token [0, 1] [some (List.replicate 65536 (7 : Nat)), some [1]] =
      Except.error (QueryError.BadQuery (BadQuery.ValuesTooLongForKey 65536 65535)) ∧
    compute_partition_key [0] [some [1, 2, 3]] = Except.ok [1, 2, 3] := by
  have h := C7_value_too_long_compound_only.1 [] 0 [1]
    [some (List.replicate 65536 (7 : Nat)), some [1]] (List.replicate 65536 (7 : Nat))
    (fun j hj => absurd hj (List.not_mem_nil j))
    (fun j hj => absurd hj (List.not_mem_nil j))
    rfl (le_of_eq (List.length_replicate 65536 7).symm) (by decide)
  refine ⟨?_, ?_, ?_⟩
  · have h1 := h.1
    rw [List.length_replicate] at h1
    exact h1
  · have h2 := h.2
    rw [List.length_replicate] at h2
    exact h2
  · exact C7_value_too_long_compound_only.2 0 [1, 2, 3] [some [1, 2, 3]] rfl

theorem eq_ignore_ascii_case_use (a b c d : Nat) :
    eq_ignore_ascii_case [a, b, c, d] [117, 115, 101, 32] = true ↔
      ((a = 117 ∨ a = 85) ∧ (b = 115 ∨ b = 83) ∧ (c = 101 ∨ c = 69) ∧ d = 32) := by
  simp only [eq_ignore_ascii_case, List.zip, List.zipWith, List.all_cons, List.all_nil,
    Bool.and_eq_true, beq_iff_eq, List.length_cons, List.length_nil, and_true, true_and,
    to_ascii_lowercase]
  split_ifs <;> omega

/-- C6: `query_is_setting_keyspace` returns true iff the text is at
least 4 bytes and its first four bytes spell `use ` ASCII
case-insensitively, and for such a text `Session::query` never runs the
single-page query path: its result is the `use_keyspace` result mapped
to no rows, hence `Ok none` (no rows) on success, independent of the
query-path oracle. -/
theorem C6_use_keyspace_redirect :
    (∀ (q : List Nat), query_is_setting_keyspace q = true ↔
      ∃ (a b c d : Nat) (rest : List Nat), q = a :: b :: c :: d :: rest ∧
        (a = 117 ∨ a = 85) ∧ (b = 115 ∨ b = 83) ∧ (c = 101 ∨ c = 69) ∧ d = 32) ∧
    (∀ (q : List Nat) (ur : Except QueryError Unit)
        (rq : Except QueryError (Option (List Row))),
      query_is_setting_keyspace q = true →
      session_query q ur rq = ur.map (fun _ => none)) ∧
    (∀ (q : List Nat) (rq : Except QueryError (Option (List Row))),
      query_is_setting_keyspace q = true →
      session_query q (Except.ok ()) rq = Except.ok none) := by
  refine ⟨?_, ?_, ?_⟩
  · intro q
    match q with
    | [] => simp [query_is_setting_keyspace]
    | [a] => simp [query_is_setting_keyspace]
    | [a, b] => simp [query_is_setting_keyspace]
    | [a, b, c] => simp [query_is_setting_keyspace]
    | a :: b :: c :: d :: rest =>
        rw [query_is_setting_keyspace]
        have hlen : ¬((a :: b :: c :: d :: rest).length < 4) := by
          simp
        rw [if_neg hlen]
        have htake : (a :: b :: c :: d :: rest).take 4 = [a, b, c, d] := rfl
        rw [htake, eq_ignore_ascii_case_use a b c d]
        constructor
        · rintro ⟨ha, hb, hc, hd⟩
          exact ⟨a, b, c, d, rest, rfl, ha, hb, hc, hd⟩
        · rintro ⟨a', b', c', d', rest', heq, ha, hb, hc, hd⟩
          cases heq
          exact ⟨ha, hb, hc, hd⟩
  · intro q ur rq h
    simp [session_query, h]
  · intro q rq h
    simp [session_query, h, Except.map]

theorem C6_use_keyspace_redirect_witness :
    (query_is_setting_keyspace [85, 115, 69, 32, 107, 115] = true) ∧
    session_query [85, 115, 69, 32, 107, 115] (Except.ok ())
        (Except.error (QueryError.ProtocolError "never run")) = Except.ok none ∧
    query_is_setting_keyspace [117, 115, 101] = false := by
  refine ⟨?_, ?_, ?_⟩
  · exact (C6_use_keyspace_redirect.1 [85, 115, 69, 32, 107, 115]).mpr
      ⟨85, 115, 69, 32, [107, 115], rfl, by omega, by omega, by omega, rfl⟩
  · exact C6_use_keyspace_redirect.2.2 [85, 115, 69, 32, 107, 115]
      (Except.error (QueryError.ProtocolError "never run")) (by decide)
  · decide

theorem find_first_ok_rev_spec (l : List (Except QueryError PreparedStatement))
    (hok : ∃ p, Except.ok p ∈ l) :
    ∃ errs p rem, l = errs ++ Except.ok p :: rem ∧
      (∀ r ∈ errs, ∃ e, r = Except.error e) ∧
      find_first_ok_rev l = (some (Except.ok p), rem) := by
  induction l with
  | nil => simp at hok
  | cons r rest ih =>
      cases r with
      | ok p => exact ⟨[], p, rest, rfl, by simp, rfl⟩
      | error e =>
          have hok' : ∃ p, Except.ok p ∈ rest := by
            obtain ⟨p, hp⟩ := hok
            simp only [List.mem_cons] at hp
            rcases hp with h | h
            · cases h
            · exact ⟨p, h⟩
          obtain ⟨errs, p, rem, heq, herrs, hfind⟩ := ih hok'
          refine ⟨Except.error e :: errs, p, rem, by simp [heq], ?_, ?_⟩
          · intro r hr
            simp only [List.mem_cons] at hr
            rcases hr with rfl | hr
            · exact ⟨e, rfl⟩
            · exact herrs r hr
          · simp [find_first_ok_rev, hfind]

theorem check_ids_equal_ok (pid : List Nat)
    (m : List (Except QueryError PreparedStatement))
    (h : ∀ q, Except.ok q ∈ m → q.id = pid) :
    check_ids_equal pid m = Except.ok () := by
  induction m with
  | nil => rfl
  | cons r rest ih =>
      cases r with
      | ok q =>
          have hq : q.id = pid := h q (by simp)
          rw [check_ids_equal, if_neg (by simp [hq])]
          exact ih (fun q hq => h q (by simp [hq]))
      | error e => exact ih (fun q hq => h q (by simp [hq]))

theorem check_ids_equal_mismatch (pid : List Nat)
    (m : List (Except QueryError PreparedStatement)) (q : PreparedStatement)
    (hq : Except.ok q ∈ m) (hne : q.id ≠ pid) :
    check_ids_equal pid m = Except.error (QueryError.ProtocolError
      "Prepared statement Ids differ, all should be equal") := by
  induction m with
  | nil => simp at hq
  | cons r rest ih =>
      simp only [List.mem_cons] at hq
      rcases hq with rfl | hq
      · rw [check_ids_equal, if_pos (by exact fun h => hne h.symm)]
      · cases r with
        | ok s =>
            by_cases hs : pid ≠ s.id
            · rw [check_ids_equal, if_pos hs]
            · rw [check_ids_equal, if_neg hs]
              exact ih hq
        | error e => exact ih hq

theorem filterMap_exceptOk_of_errors (l : List (Except QueryError PreparedStatement))
    (h : ∀ r ∈ l, ∃ e, r = Except.error e) :
    l.filterMap exceptOk? = [] := by
  induction l with
  | nil => rfl
  | cons r rest ih =>
      obtain ⟨e, rfl⟩ := h r (by simp)
      simpa [exceptOk?] using ih (fun r hr => h r (by simp [hr]))

/-- C5: across the per-connection prepare results, if two returned
prepared statements carry ids that are not byte-equal then
`Session::prepare` returns the `ProtocolError` about differing ids;
and when every returned prepared statement carries the same id the call
returns a prepared statement with that id (the last `Ok` of the results
vector). -/
theorem C5_prepare_checks_id_equality :
    (∀ (results : List (Except QueryError PreparedStatement))
        (a b : PreparedStatement),
      Except.ok a ∈ results → Except.ok b ∈ results → a.id ≠ b.id →
      session_prepare results = some (Except.error (QueryError.ProtocolError
        "Prepared statement Ids differ, all should be equal"))) ∧
    (∀ (results : List (Except QueryError PreparedStatement))
        (p0 : PreparedStatement),
      (results.filterMap exceptOk?).getLast? = some p0 →
      (∀ q ∈ results.filterMap exceptOk?, q.id = p0.id) →
      session_prepare results = some (Except.ok p0)) := by
  constructor
  · intro results a b ha hb hne
    have hok : ∃ p, Except.ok p ∈ results.reverse := ⟨a, by simpa using ha⟩
    obtain ⟨errs, p, rem, heq, herrs, hfind⟩ := find_first_ok_rev_spec results.reverse hok
    have hres : results = rem.reverse ++ Except.ok p :: errs.reverse := by
      have := congrArg List.reverse heq
      simpa [List.reverse_append] using this
    have mem_cases : ∀ (q : PreparedStatement), Except.ok q ∈ results →
        q = p ∨ Except.ok q ∈ rem.reverse := by
      intro q hqmem
      rw [hres] at hqmem
      simp only [List.mem_append, List.mem_cons] at hqmem
      rcases hqmem with h | h | h
      · exact Or.inr h
      · cases h
        exact Or.inl rfl
      · obtain ⟨e, he⟩ := herrs (Except.ok q) (by simpa using h)
        cases he
    have hwitness : ∃ q, Except.ok q ∈ rem.reverse ∧ q.id ≠ p.id := by
      rcases mem_cases a ha with rfl | ham
      · rcases mem_cases b hb with rfl | hbm
        · exact absurd rfl hne
        · exact ⟨b, hbm, fun h => hne h.symm⟩
      · by_cases hap : a.id = p.id
        · rcases mem_cases b hb with rfl | hbm
          · exact absurd hap hne
          · exact ⟨b, hbm, fun h => hne (hap.trans h.symm)⟩
        · exact ⟨a, ham, hap⟩
    obtain ⟨q, hqm, hqne⟩ := hwitness
    have hcheck := check_ids_equal_mismatch p.id rem.reverse q hqm hqne
    simp [session_prepare, hfind, hcheck]
  · intro results p0 hlast hall
    have hok : ∃ p, Except.ok p ∈ results.reverse := by
      have : p0 ∈ results.filterMap exceptOk? := List.mem_of_getLast?_eq_some hlast
      obtain ⟨r, hr, he⟩ := List.mem_filterMap.mp this
      cases r with
      | ok q =>
          simp only [exceptOk?, Option.some.injEq] at he
          exact ⟨q, by simpa using hr⟩
      | error e => simp [exceptOk?] at he
    obtain ⟨errs, p, rem, heq, herrs, hfind⟩ := find_first_ok_rev_spec results.reverse hok
    have hres : results = rem.reverse ++ Except.ok p :: errs.reverse := by
      have := congrArg List.reverse heq
      simpa [List.reverse_append] using this
    have hfm : results.filterMap exceptOk? =
        rem.reverse.filterMap exceptOk? ++ [p] := by
      rw [hres]
      rw [List.filterMap_append]
      have herrs' : errs.reverse.filterMap exceptOk? = [] :=
        filterMap_exceptOk_of_errors errs.reverse
          (fun r hr => herrs r (by simpa using hr))
      simp [exceptOk?, herrs']
    have hp0 : p = p0 := by
      rw [hfm, List.getLast?_concat] at hlast
      simpa using hlast
    have hids : ∀ q, Except.ok q ∈ rem.reverse → q.id = p.id := by
      intro q hq
      have hq' : q ∈ results.filterMap exceptOk? := by
        rw [hfm]
        refine List.mem_append_left _ ?_
        exact List.mem_filterMap.mpr ⟨Except.ok q, hq, rfl⟩
      rw [hp0]
      exact hall q hq'
    have hcheck := check_ids_equal_ok p.id rem.reverse hids
    rw [hp0] at hcheck
    simp [session_prepare, hfind, hcheck, hp0]

theorem C5_prepare_checks_id_equality_witness :
    session_prepare [Except.ok { id := [1], pk_indexes := [], statement := [] },
        Except.ok { id := [2], pk_indexes := [], statement := [] }] =
      some (Except.error (QueryError.ProtocolError
        "Prepared statement Ids differ, all should be equal")) ∧
    session_prepare [Except.error (QueryError.IOError "io"),
        Except.ok { id := [5], pk_indexes := [], statement := [] }] =
      some (Except.ok { id := [5], pk_indexes := [], statement := [] }) := by
  constructor
  · exact C5_prepare_checks_id_equality.1 _
      { id := [1], pk_indexes := [], statement := [] }
      { id := [2], pk_indexes := [], statement := [] }
      (by simp) (by simp) (by simp)
  · exact C5_prepare_checks_id_equality.2 _
      { id := [5], pk_indexes := [], statement := [] }
      (by simp [exceptOk?])
      (by
        intro q hq
        simp only [List.filterMap, exceptOk?] at hq
        simp at hq
        rw [hq])

/-- C10: in `run_query`, a connection-acquisition failure on a node
records the error as `last_error` and advances directly to the next
node with the retry-policy state untouched (the policy is consulted
only for request errors); consequently even a non-idempotent query
proceeds to the next node after a connection failure and succeeds
there. -/
theorem C10_connection_failure_skips_node :
    (∀ (α σ : Type) (decide_fn : σ → QueryInfo → RetryDecision × σ) (idemp : Bool)
        (cons : Consistency) (node : NodeScript α) (rest : List (NodeScript α)) (s : σ)
        (last_error e : QueryError),
      node.conn = Except.error e →
      run_query decide_fn idemp cons (node :: rest) s last_error =
        run_query decide_fn idemp cons rest s e) ∧
    (∀ (α σ : Type) (decide_fn : σ → QueryInfo → RetryDecision × σ)
        (cons : Consistency) (e : QueryError) (qrs : List (Except QueryError α))
        (r : α) (rest : List (NodeScript α)) (s : σ) (last_error : QueryError),
      run_query decide_fn false cons
        ({ conn := Except.error e, query_results := qrs } ::
          { conn := Except.ok (), query_results := [Except.ok r] } :: rest) s last_error =
        RunQueryResult.ok r) := by
  constructor
  · intro α σ decide_fn idemp cons node rest s last_error e h
    obtain ⟨conn, qrs⟩ := node
    cases h
    rfl
  · intro α σ decide_fn cons e qrs r rest s last_error
    rfl

theorem C10_connection_failure_skips_node_witness :
    run_query decide_should_retry false Consistency.One
      [{ conn := Except.error (QueryError.IOError "connect failed"), query_results := [] },
       { conn := Except.ok (), query_results := [Except.ok (42 : Nat)] }]
      DefaultRetryPolicy.new (QueryError.ProtocolError "Empty query plan - driver bug!") =
      RunQueryResult.ok 42 ∧
    run_query decide_should_retry false Consistency.One
      ([{ conn := Except.error (QueryError.IOError "connect failed"),
          query_results := ([] : List (Except QueryError Nat)) }])
      DefaultRetryPolicy.new (QueryError.ProtocolError "Empty query plan - driver bug!") =
      RunQueryResult.err (QueryError.IOError "connect failed") := by
  constructor
  · exact C10_connection_failure_skips_node.2 Nat DefaultRetryPolicy decide_should_retry
      Consistency.One (QueryError.IOError "connect failed") [] 42 []
      DefaultRetryPolicy.new (QueryError.ProtocolError "Empty query plan - driver bug!")
  · exact (C10_connection_failure_skips_node.1 Nat DefaultRetryPolicy decide_should_retry
      false Consistency.One
      { conn := Except.error (QueryError.IOError "connect failed"), query_results := [] }
      [] DefaultRetryPolicy.new (QueryError.ProtocolError "Empty query plan - driver bug!")
      (QueryError.IOError "connect failed") rfl).trans rfl

/-- C2 is violated by the code: after receiving the page whose
`paging_state` is absent, `query_pages` does not return — it stores
`none` as the next paging state, resets the policy and loops, issuing
another page request from the start (`outcome = none`, `remaining`
exhausted with the worker still looping); consequently the worker of a
one-page result set never closes the channel (`stillRunning`, not
`terminated`), so the iterator does not terminate after N rows. -/
theorem C2_paging_worker_never_terminates :
    query_pages DefaultRetryPolicy.new [Except.ok (ResponseModel.rows terminalPage)]
        (some [9, 9]) DefaultRetryPolicy.new =
      { sent := [terminalPage], paging_state := none, policy := DefaultRetryPolicy.new,
        remaining := [], outcome := none } ∧
    work_init decide_should_retry DefaultRetryPolicy.new true Consistency.One
        [{ conn := Except.ok (),
           responses := [Except.ok (ResponseModel.rows terminalPage)] }] =
      WorkOutcome.stillRunning [terminalPage] := by
  constructor
  · rfl
  · rw [work_init, work]
    rw [work_same_node]
    rfl

/-- C4 is violated by the code on its DontRetry clause: a DontRetry
decision executes `break 'same_node_retries`, after which the node loop
advances to the next node of the plan instead of surfacing the error
and terminating the stream.  Concretely: the default policy answers
DontRetry for a SyntaxError, yet after a SyntaxError on the first node
the worker queries the second node and sends its page. -/
theorem C4_dont_retry_advances_to_next_node :
    (decide_should_retry DefaultRetryPolicy.new
      { error := QueryError.DBError DBError.SyntaxError "msg", is_idempotent := true,
        consistency := Consistency.One }).1 = RetryDecision.DontRetry ∧
    work_init decide_should_retry DefaultRetryPolicy.new true Consistency.One
      [{ conn := Except.ok (),
         responses := [Except.error (QueryError.DBError DBError.SyntaxError "msg")] },
       { conn := Except.ok (),
         responses := [Except.ok (ResponseModel.rows terminalPage)] }] =
      WorkOutcome.stillRunning [terminalPage] := by
  constructor
  · rfl
  · rw [work_init, work]
    rw [work_same_node]
    show work decide_should_retry DefaultRetryPolicy.new true Consistency.One
        [{ conn := Except.ok (),
           responses := [Except.ok (ResponseModel.rows terminalPage)] }]
        none DefaultRetryPolicy.new (QueryError.DBError DBError.SyntaxError "msg")
        ([] ++ []) =
      WorkOutcome.stillRunning [terminalPage]
    rw [work]
    rw [work_same_node]
    rfl

theorem except_bind_eq_ok {ε α β : Type} {x : Except ε α} {f : α → Except ε β} {b : β} :
    x >>= f = Except.ok b ↔ ∃ a, x = Except.ok a ∧ f a = Except.ok b := by
  cases x with
  | error e => simp [Bind.bind, Except.bind]
  | ok a => simp [Bind.bind, Except.bind]

theorem deser_set_elems_all (f : List Nat → Except String (CQLValue × List Nat))
    (Q : CQLValue → Prop) (hf : ∀ b v r, f b = Except.ok (v, r) → Q v) :
    ∀ (n : Nat) (buf : List Nat) (vs : List CQLValue) (r : List Nat),
      deser_set_elems f n buf = Except.ok (vs, r) → ∀ v ∈ vs, Q v := by
  intro n
  induction n with
  | zero =>
      intro buf vs r h v hv
      rw [deser_set_elems] at h
      cases h
      simp at hv
  | succ n ih =>
      intro buf vs r h v hv
      rw [deser_set_elems] at h
      simp only [except_bind_eq_ok] at h
      obtain ⟨⟨b, buf1⟩, hrb, ⟨⟨v1, r1⟩, hfv, ⟨⟨vs2, buf2⟩, hrec, hok⟩⟩⟩ := h
      cases hok
      simp only [List.mem_cons] at hv
      rcases hv with rfl | hv
      · exact hf b v r1 hfv
      · exact ih buf1 vs2 buf2 hrec v hv

theorem deser_cql_value_matches :
    ∀ (typ : ColumnType) (b : List Nat) (v : CQLValue) (rest : List Nat),
      deser_cql_value typ b = Except.ok (v, rest) → typeMatches typ v = true := by
  intro typ
  induction typ with
  | Ascii =>
      intro b v rest h
      rw [deser_cql_value] at h
      split_ifs at h <;> cases h
      rfl
  | Int =>
      intro b v rest h
      rw [deser_cql_value] at h
      split_ifs at h
      simp only [except_bind_eq_ok] at h
      obtain ⟨⟨i, r⟩, _, hok⟩ := h
      cases hok
      rfl
  | BigInt =>
      intro b v rest h
      rw [deser_cql_value] at h
      split_ifs at h
      simp only [except_bind_eq_ok] at h
      obtain ⟨⟨i, r⟩, _, hok⟩ := h
      cases hok
      rfl
  | Text =>
      intro b v rest h
      rw [deser_cql_value] at h
      split_ifs at h <;> cases h
      rfl
  | Inet =>
      intro b v rest h
      rw [deser_cql_value] at h
      split_ifs at h <;> cases h <;> rfl
  | Set t ih =>
      intro b v rest h
      rw [deser_cql_value] at h
      simp only [except_bind_eq_ok] at h
      obtain ⟨⟨len, buf2⟩, hlen, h⟩ := h
      split_ifs at h
      simp only [except_bind_eq_ok] at h
      obtain ⟨⟨vs, buf3⟩, helems, hok⟩ := h
      cases hok
      have hall := deser_set_elems_all (fun bb => deser_cql_value t bb)
        (fun w => typeMatches t w = true)
        (fun bb w r hw => ih bb w r hw) len.toNat buf2 vs buf3 helems
      simp only [typeMatches, List.all_eq_true]
      intro x hx
      exact hall x.1 x.2

theorem deser_row_columns_spec :
    ∀ (specs : List ColumnSpec) (buf : List Nat) (cols : List (Option CQLValue))
      (rest : List Nat),
      deser_row_columns specs buf = Except.ok (cols, rest) →
      List.Forall₂ (fun spec cell => ∀ v, cell = some v → typeMatches spec.typ v = true)
        specs cols := by
  intro specs
  induction specs with
  | nil =>
      intro buf cols rest h
      rw [deser_row_columns] at h
      cases h
      exact List.Forall₂.nil
  | cons spec srest ih =>
      intro buf cols rest h
      rw [deser_row_columns] at h
      simp only [except_bind_eq_ok] at h
      obtain ⟨⟨ob, buf1⟩, hrb, h⟩ := h
      cases ob with
      | some b =>
          simp only [except_bind_eq_ok] at h
          obtain ⟨⟨v, vr⟩, hval, ⟨⟨vs, buf2⟩, hrec, hok⟩⟩ := h
          cases hok
          refine List.Forall₂.cons ?_ (ih _ _ _ hrec)
          intro w hw
          cases hw
          exact deser_cql_value_matches _ _ _ _ hval
      | none =>
          simp only [except_bind_eq_ok] at h
          obtain ⟨⟨vs, buf2⟩, hrec, hok⟩ := h
          cases hok
          refine List.Forall₂.cons ?_ (ih _ _ _ hrec)
          intro w hw
          cases hw

theorem deser_rows_loop_spec (specs : List ColumnSpec) :
    ∀ (n : Nat) (buf : List Nat) (rows : List Row) (rest : List Nat),
      deser_rows_loop specs n buf = Except.ok (rows, rest) →
      ∀ row ∈ rows,
        List.Forall₂ (fun spec cell => ∀ v, cell = some v → typeMatches spec.typ v = true)
          specs row.columns := by
  intro n
  induction n with
  | zero =>
      intro buf rows rest h row hrow
      rw [deser_rows_loop] at h
      cases h
      simp at hrow
  | succ n ih =>
      intro buf rows rest h row hrow
      rw [deser_rows_loop] at h
      simp only [except_bind_eq_ok] at h
      obtain ⟨⟨cols, buf1⟩, hcols, ⟨⟨rows2, buf2⟩, hrec, hok⟩⟩ := h
      cases hok
      simp only [List.mem_cons] at hrow
      rcases hrow with rfl | hrow
      · exact deser_row_columns_spec specs buf cols buf1 hcols
      · exact ih buf1 rows2 buf2 hrec row hrow

/-- C8: whenever `deser_rows` succeeds, every produced row has exactly
`metadata.col_count` columns and each column, in received order, is
either NULL or a `CQLValue` matching the corresponding column type of
`col_specs` (stated with `Forall₂`, which also fixes the order and
length); a column cell whose i32 length is `-1` decodes to NULL
consuming just the length; a cell with length `len` slices exactly
`len` bytes; and every value `deser_cql_value` produces matches the
requested `ColumnType`. -/
theorem C8_deser_rows_shape :
    (∀ (buf : List Nat) (r : Rows) (rest : List Nat),
      deser_rows buf = Except.ok (r, rest) →
      ∀ row ∈ r.rows, row.columns.length = r.metadata.col_count ∧
        List.Forall₂ (fun spec cell => ∀ v, cell = some v → typeMatches spec.typ v = true)
          r.metadata.col_specs row.columns) ∧
    (∀ buf2 : List Nat,
      read_bytes_opt (255 :: 255 :: 255 :: 255 :: buf2) = Except.ok (none, buf2)) ∧
    (∀ (len : Nat) (buf2 : List Nat), len < 2147483648 → len ≤ buf2.length →
      read_bytes_opt (i32_be len ++ buf2) =
        Except.ok (some (buf2.take len), buf2.drop len)) ∧
    (∀ (typ : ColumnType) (b : List Nat) (v : CQLValue) (rest : List Nat),
      deser_cql_value typ b = Except.ok (v, rest) → typeMatches typ v = true) := by
  refine ⟨?_, ?_, ?_, deser_cql_value_matches⟩
  · intro buf r rest h row hrow
    rw [deser_rows] at h
    simp only [except_bind_eq_ok] at h
    obtain ⟨⟨metadata, buf1⟩, hmeta, h⟩ := h
    split_ifs at h with hassert
    simp only [except_bind_eq_ok] at h
    obtain ⟨⟨cnt, buf2⟩, hcnt, h⟩ := h
    split_ifs at h
    simp only [except_bind_eq_ok] at h
    obtain ⟨⟨rows, buf3⟩, hloop, hok⟩ := h
    cases hok
    have hf2 := deser_rows_loop_spec metadata.col_specs cnt.toNat buf2 rows buf3
      hloop row hrow
    refine ⟨?_, hf2⟩
    have hlen := hf2.length_eq
    have hassert2 : metadata.col_count = metadata.col_specs.length := hassert
    show row.columns.length = metadata.col_count
    rw [hassert2]
    exact hlen.symm
  · intro buf2
    rfl
  · intro len buf2 hlt hle
    have hdig : (len / 16777216 % 256) * 16777216 + (len / 65536 % 256) * 65536 +
        (len / 256 % 256) * 256 + len % 256 = len := by omega
    show read_bytes_opt (len / 16777216 % 256 :: len / 65536 % 256 :: len / 256 % 256 ::
      len % 256 :: buf2) = Except.ok (some (buf2.take len), buf2.drop len)
    rw [read_bytes_opt]
    simp only [read_int, hdig]
    rw [if_pos hlt]
    have hnonneg : ¬((len : Int) < 0) := by omega
    simp only [except_bind_eq_ok]
    refine ⟨((len : Int), buf2), rfl, ?_⟩
    rw [if_neg hnonneg]
    simp only [except_bind_eq_ok]
    have htn : (len : Int).toNat = len := Int.toNat_natCast len
    rw [htn, read_raw, if_pos hle]
    exact ⟨(buf2.take len, buf2.drop len), rfl, rfl⟩

theorem C8_deser_rows_shape_witness :
    (Row.mk [some (CQLValue.Int 7)]).columns.length =
      (ResultMetadata.mk 1 none
        [ColumnSpec.mk (TableSpec.mk [107] [116]) [97] ColumnType.Int]).col_count ∧
    typeMatches ColumnType.Int (CQLValue.Int 7) = true ∧
    read_bytes_opt [255, 255, 255, 255, 9] = Except.ok (none, [9]) ∧
    read_bytes_opt [0, 0, 0, 2, 8, 9, 10] = Except.ok (some [8, 9], [10]) := by
  have h := C8_deser_rows_shape.1
    [0, 0, 0, 0, 0, 0, 0, 1, 0, 1, 107, 0, 1, 116, 0, 1, 97, 0, 9,
      0, 0, 0, 1, 0, 0, 0, 4, 0, 0, 0, 7]
    (Rows.mk (ResultMetadata.mk 1 none
      [ColumnSpec.mk (TableSpec.mk [107] [116]) [97] ColumnType.Int]) 1
      [Row.mk [some (CQLValue.Int 7)]]) [] (by rfl)
  refine ⟨?_, ?_, ?_, ?_⟩
  · exact (h (Row.mk [some (CQLValue.Int 7)]) (List.mem_singleton_self _)).1
  · exact C8_deser_rows_shape.2.2.2 ColumnType.Int [0, 0, 0, 7] (CQLValue.Int 7) []
      (by rfl)
  · exact C8_deser_rows_shape.2.1 [9]
  · exact C8_deser_rows_shape.2.2.1 2 [8, 9, 10] (by omega) (by simp)
